import Mathlib

/-!
Verification development for the Iterated Prisoner's Dilemma simulator
(`advanced_ipd_gui_v6.py`).  The core game logic is embedded shallowly:

* moves, the payoff table, and the built-in strategy functions that the
  verified properties concern (`always_cooperate`, `always_defect`,
  `tit_for_tat`, `grudger`);
* the custom-strategy rule interpreter (`create_custom_strategy_function`);
* the `Game` class (`__init__`, `play_round`, `run_game`, `get_round_data`);
* the Single Elimination tournament loop and the Group-Stage qualifier
  ranking from `IPDSimulatorV6.run_tournament`.

Randomness: every call of Python's `random.random()` is modelled as reading
the next value of a draw function `g : ℕ → ℚ` at a running counter, which is
threaded through all definitions in the exact order the source consumes
draws (including conditional draws hidden behind Python's short-circuit
`and`).  Floating point probabilities are modelled as rationals.
-/

namespace IPD

/-- The two moves, `COOPERATE = 'C'` and `DEFECT = 'D'`. -/
inductive Move where
  | C : Move
  | D : Move
deriving DecidableEq, Repr

/-- The fixed payoff table `PAYOFFS` (source lines 32-37):
`(C,C) ↦ (3,3)`, `(C,D) ↦ (0,5)`, `(D,C) ↦ (5,0)`, `(D,D) ↦ (1,1)`. -/
def PAYOFFS : Move → Move → ℕ × ℕ
  | Move.C, Move.C => (3, 3)
  | Move.C, Move.D => (0, 5)
  | Move.D, Move.C => (5, 0)
  | Move.D, Move.D => (1, 1)

/-- Character rendering of a move, used by `"".join(history)`. -/
def Move.toChar : Move → Char
  | Move.C => 'C'
  | Move.D => 'D'

/-- `"".join(history)` for a move history. -/
def moveString (h : List Move) : String :=
  String.mk (h.map Move.toChar)

/-- A stream of `random.random()` draws: the `j`-th call returns `g j`. -/
abbrev Rand := ℕ → ℚ

/-- The shape of a strategy decision function: it receives the draw stream,
`my_history`, `opponent_history`, `round_number`, `forgiveness_prob` and the
current draw counter, and returns the chosen move together with the counter
after any draws it consumed. -/
abbrev StratFun := Rand → List Move → List Move → ℕ → ℚ → ℕ → Move × ℕ

/-- Source lines 61-62. -/
def always_cooperate : StratFun := fun _g _my _opp _round _fprob i =>
  (Move.C, i)

/-- Source lines 64-65. -/
def always_defect : StratFun := fun _g _my _opp _round _fprob i =>
  (Move.D, i)

/-- Source lines 67-72.  The forgiveness draw is consumed only when the
opponent's last move is `D` (Python short-circuit `and`). -/
def tit_for_tat : StratFun := fun g _my opp _round fprob i =>
  match opp.getLast? with
  | none => (Move.C, i)
  | some last =>
      if last = Move.D then
        if g i < fprob then (Move.C, i + 1) else (last, i + 1)
      else (last, i)

/-- Source lines 74-79.  Note the forgiveness draw happens only when the
opponent's *last* move is `D`; with an earlier defection but a last move of
`C` the function returns `D` without drawing. -/
def grudger : StratFun := fun g _my opp _round fprob i =>
  if Move.D ∈ opp then
    if opp.getLast? = some Move.D then
      if g i < fprob then (Move.C, i + 1) else (Move.D, i + 1)
    else (Move.D, i)
  else (Move.C, i)

/-- A registry entry: display name and decision function (the fields of the
`STRATEGIES` dictionary entries that `Game.__init__` reads). -/
structure StrategyMeta where
  name : String
  func : StratFun

/-- The fallback `lambda *args: COOPERATE` installed by `Game.__init__`
(source lines 227-228) when a strategy id is absent from the registry. -/
def missingStrategyFunc : StratFun := fun _g _my _opp _round _fprob i =>
  (Move.C, i)

/-- The entries of `BUILT_IN_STRATEGIES_META` (source lines 155-167) whose
decision functions are embedded in this development. -/
def BUILT_IN_STRATEGIES_META : List (String × StrategyMeta) :=
  [("cooperate", ⟨"Always Cooperate", always_cooperate⟩),
   ("defect", ⟨"Always Defect", always_defect⟩),
   ("tit_for_tat", ⟨"Tit for Tat (TFT)", tit_for_tat⟩),
   ("grudger", ⟨"Grudger", grudger⟩)]

/-- The `Game` object state (source lines 212-230). -/
structure Game where
  strategy1_id : String
  strategy2_id : String
  num_rounds : ℕ
  noise_prob : ℚ
  forgiveness_prob : ℚ
  history1 : List Move
  history2 : List Move
  score1 : ℕ
  score2 : ℕ
  strategy1_func : StratFun
  strategy2_func : StratFun
  strategy1_name : String
  strategy2_name : String

/-- `Game.__init__` (source lines 213-230): histories start empty, scores at
zero, and the decision functions and display names are looked up in the
registry with `STRATEGIES.get(id, {}).get('func', lambda *args: COOPERATE)`
and `.get('name', id)` — a missing id silently yields the Always-Cooperate
fallback function and the raw id as display name. -/
def Game.init (STRATEGIES : List (String × StrategyMeta))
    (strategy1_id strategy2_id : String) (num_rounds : ℕ)
    (noise_prob forgiveness_prob : ℚ) : Game where
  strategy1_id := strategy1_id
  strategy2_id := strategy2_id
  num_rounds := num_rounds
  noise_prob := noise_prob
  forgiveness_prob := forgiveness_prob
  history1 := []
  history2 := []
  score1 := 0
  score2 := 0
  strategy1_func :=
    match STRATEGIES.lookup strategy1_id with
    | some m => m.func
    | none => missingStrategyFunc
  strategy2_func :=
    match STRATEGIES.lookup strategy2_id with
    | some m => m.func
    | none => missingStrategyFunc
  strategy1_name :=
    match STRATEGIES.lookup strategy1_id with
    | some m => m.name
    | none => strategy1_id
  strategy2_name :=
    match STRATEGIES.lookup strategy2_id with
    | some m => m.name
    | none => strategy2_id

/-- Noise inversion `COOPERATE if intended == DEFECT else DEFECT`. -/
def flip : Move → Move
  | Move.D => Move.C
  | Move.C => Move.D

/-- The value of one `Game.play_round` call: the updated game, the returned
tuple `(move1_actual, move2_actual, payoff1, payoff2)`, and the draw counter
after the round. -/
structure RoundResult where
  game : Game
  move1_actual : Move
  move2_actual : Move
  payoff1 : ℕ
  payoff2 : ℕ
  rng : ℕ

/-- `Game.play_round` (source lines 232-250).  Draw order per round:
strategy 1's decision, strategy 2's decision, noise draw for player 1,
noise draw for player 2 (the two noise draws always happen). -/
def Game.play_round (gm : Game) (g : Rand) (round_number : ℕ) (i : ℕ) :
    RoundResult :=
  let r1 := gm.strategy1_func g gm.history1 gm.history2 round_number
    gm.forgiveness_prob i
  let move1_intended := r1.1
  let r2 := gm.strategy2_func g gm.history2 gm.history1 round_number
    gm.forgiveness_prob r1.2
  let move2_intended := r2.1
  let move1_actual :=
    if g r2.2 < gm.noise_prob then flip move1_intended else move1_intended
  let move2_actual :=
    if g (r2.2 + 1) < gm.noise_prob then flip move2_intended else move2_intended
  let p := PAYOFFS move1_actual move2_actual
  { game :=
      { gm with
        history1 := gm.history1 ++ [move1_actual]
        history2 := gm.history2 ++ [move2_actual]
        score1 := gm.score1 + p.1
        score2 := gm.score2 + p.2 }
    move1_actual := move1_actual
    move2_actual := move2_actual
    payoff1 := p.1
    payoff2 := p.2
    rng := r2.2 + 2 }

/-- `for r in range(...): play_round(r)` — run `count` consecutive rounds
starting at round index `round0` with draw counter `i`. -/
def Game.run_from (g : Rand) : ℕ → Game → ℕ → ℕ → Game × ℕ
  | 0, gm, _round0, i => (gm, i)
  | count + 1, gm, round0, i =>
      let res := gm.play_round g round0 i
      Game.run_from g count res.game (round0 + 1) res.rng

/-- `Game.run_game` (source lines 252-255): run all `num_rounds` rounds and
return `(score1, score2, "".join(history1), "".join(history2))`. -/
def Game.run_game (gm : Game) (g : Rand) (i : ℕ) : ℕ × ℕ × String × String :=
  let fin := (Game.run_from g gm.num_rounds gm 0 i).1
  (fin.score1, fin.score2, moveString fin.history1, moveString fin.history2)

/-- `Game.get_round_data` (source lines 257-263): the recorded moves and
their payoffs for a completed round, `none` out of range (the source returns
a tuple of `None`s). -/
def Game.get_round_data (gm : Game) (round_num : ℕ) :
    Option (Move × Move × ℕ × ℕ) :=
  if round_num < gm.history1.length then
    match gm.history1[round_num]?, gm.history2[round_num]? with
    | some m1, some m2 => some (m1, m2, (PAYOFFS m1 m2).1, (PAYOFFS m1 m2).2)
    | _, _ => none
  else none

/-- The `'opp_last_move'` rule value: target moves keyed `'C'` and `'D'`,
either of which may be absent. -/
structure OppLastMoveRule where
  onC : Option Move
  onD : Option Move

/-- The `'opp_coop_lt'` rule value: `{'value': threshold, 'move': move}`. -/
structure CoopRateRule where
  value : ℚ
  move : Move

/-- The `'round_gt'` rule value: `{'value': threshold, 'move': move}`. -/
structure RoundGtRule where
  value : ℕ
  move : Move

/-- A custom rule set: the `rules` dictionary passed to
`create_custom_strategy_function`.  Any key may be absent, including
`'default'`. -/
structure RuleSet where
  default : Option Move
  opp_last_move : Option OppLastMoveRule
  opp_coop_lt : Option CoopRateRule
  round_gt : Option RoundGtRule

/-- The opponent cooperation rate
`(coop_count / total_moves) * 100 if total_moves > 0 else 100`
(source lines 190-192), with float arithmetic modelled over ℚ. -/
def coopRate (opp : List Move) : ℚ :=
  if 0 < opp.length then
    ((opp.count Move.C : ℚ) / (opp.length : ℚ)) * 100
  else 100

/-- The rule-evaluation prefix of `custom_strategy_logic` (source lines
175-200): the chosen move together with the `rule_triggered_defection` flag.
The three branches form an `if`/`elif`/`elif` chain keyed on rule *presence*
(plus a nonempty opponent history for the first two), so a present
`'opp_last_move'` rule shadows the later rules even when it defines no move
for the opponent's actual last move. -/
def ruleDecision (rules : RuleSet) (opp : List Move) (round_number : ℕ) :
    Move × Bool :=
  let dflt := rules.default.getD Move.C
  match rules.opp_last_move, opp.getLast? with
  | some r, some last_opp_move =>
      match (if last_opp_move = Move.C then r.onC else r.onD) with
      | some m => (m, m == Move.D)
      | none => (dflt, false)
  | _, _ =>
      match rules.opp_coop_lt, opp.getLast? with
      | some c, some _ =>
          if coopRate opp < c.value then (c.move, c.move == Move.D)
          else (dflt, false)
      | _, _ =>
          match rules.round_gt with
          | some rg =>
              if rg.value < round_number then (rg.move, rg.move == Move.D)
              else (dflt, false)
          | none => (dflt, false)

/-- The inner `custom_strategy_logic` closure (source lines 174-208): after
rule evaluation, the forgiveness draw is consumed only when the chosen move
is `D` *and* the `rule_triggered_defection` flag is set. -/
def custom_strategy_logic (rules : RuleSet) : StratFun :=
  fun g _my opp round_number forgiveness_prob i =>
    let res := ruleDecision rules opp round_number
    if res.1 = Move.D ∧ res.2 = true then
      if g i < forgiveness_prob then (Move.C, i + 1) else (res.1, i + 1)
    else (res.1, i)

/-- `create_custom_strategy_function` (source lines 173-209): builds the
decision function from the rule dictionary, with no validation of any kind
performed on `rules`. -/
def create_custom_strategy_function (rules : RuleSet) : StratFun :=
  custom_strategy_logic rules

/-- Holds when no branch of the `if`/`elif` chain in `custom_strategy_logic`
assigns a move, so that the default is the chosen move: either the present
`'opp_last_move'` rule defines no move for the opponent's last move, or the
`'opp_coop_lt'` condition fails, or the `'round_gt'` condition fails, or no
applicable rule is present. -/
def noRuleMatches (rules : RuleSet) (opp : List Move) (round_number : ℕ) :
    Bool :=
  match rules.opp_last_move, opp.getLast? with
  | some r, some last_opp_move =>
      (if last_opp_move = Move.C then r.onC else r.onD).isNone
  | _, _ =>
      match rules.opp_coop_lt, opp.getLast? with
      | some c, some _ => !(decide (coopRate opp < c.value))
      | _, _ =>
          match rules.round_gt with
          | some rg => !(decide (rg.value < round_number))
          | none => true

/-- Consecutive pairing `list(zip(lst[::2], lst[1::2]))` of an
even-length list (position 0 vs 1, 2 vs 3, ...). -/
def pairup {α : Type} : List α → List (α × α)
  | a :: b :: rest => (a, b) :: pairup rest
  | [] => []
  | [_] => []

/-- The outcome of one round of the Single Elimination `while` loop
(source lines 1534-1561): the survivors (bye first, then winners in match
order), the losers eliminated this round, and the number of decisive
matches played (byes excluded). -/
structure ElimRoundOut (α : Type) where
  next : List α
  losers : List α
  num_matches : ℕ

/-- One iteration of the elimination loop.  Match outcomes are abstracted as
a score oracle `oracle round_num p1 p2 = (s1, s2)` standing for
`Game(...).run_game()`; the winner is `p1_id if s1 >= s2 else p2_id`
(ties go to player one, source line 1553).  If the participant count is odd
the first participant receives a bye (`pop(0)`, source lines 1537-1539). -/
def elimRound {α : Type} (oracle : ℕ → α → α → ℕ × ℕ) (round_num : ℕ)
    (ps : List α) : ElimRoundOut α :=
  let byes : List α := if ps.length % 2 ≠ 0 then ps.take 1 else []
  let rest : List α := if ps.length % 2 ≠ 0 then ps.drop 1 else ps
  let results : List (α × α) := (pairup rest).map (fun pr =>
    let s := oracle round_num pr.1 pr.2
    if s.1 ≥ s.2 then (pr.1, pr.2) else (pr.2, pr.1))
  ⟨byes ++ results.map Prod.fst, results.map Prod.snd, (pairup rest).length⟩

/-- The accumulated result of the elimination loop: surviving participants,
the final value of `round_num`, the number of loop iterations (bracket
rounds played), total decisive matches, and the `(loser, elim_round)`
records written into `full_ranking_data` (source line 1557). -/
structure ElimResult (α : Type) where
  final : List α
  round_num : ℕ
  rounds_played : ℕ
  num_matches : ℕ
  elims : List (α × ℕ)

/-- The `while len(current_round_participants) > 1` loop (source lines
1534-1561), written with a fuel argument for structural recursion; fuel
`ps.length` always suffices because each iteration strictly shrinks the
participant list. -/
def runElimFuel {α : Type} (oracle : ℕ → α → α → ℕ × ℕ) :
    ℕ → List α → ℕ → ElimResult α
  | 0, ps, rn => ⟨ps, rn, 0, 0, []⟩
  | fuel + 1, ps, rn =>
      if 1 < ps.length then
        let out := elimRound oracle rn ps
        let res := runElimFuel oracle fuel out.next (rn + 1)
        ⟨res.final, res.round_num, res.rounds_played + 1,
          out.num_matches + res.num_matches,
          out.losers.map (fun l => (l, rn)) ++ res.elims⟩
      else ⟨ps, rn, 0, 0, []⟩

/-- The Single Elimination tournament body: the loop is entered with
`round_num = 1` (source line 1529). -/
def run_elimination {α : Type} (oracle : ℕ → α → α → ℕ × ℕ)
    (participants : List α) : ElimResult α :=
  runElimFuel oracle participants.length participants 1

/-- The elimination round recorded for the eventual winner:
`full_ranking_data[winner_id]['elim_round'] = round_num` after the loop
(source line 1566). -/
def winnerElimRound {α : Type} (oracle : ℕ → α → α → ℕ × ℕ)
    (participants : List α) : ℕ :=
  (run_elimination oracle participants).round_num

/-- The comparison realised by
`sorted(group, key=lambda x: (score(x), name(x)), reverse=True)`
(source line 1601): `x` sorts no later than `y` iff `x` has the strictly
higher score, or equal scores and a lexicographically no smaller name. -/
def groupKeyGE {α : Type} (scores : α → ℕ) (nm : α → String) (x y : α) :
    Prop :=
  scores y < scores x ∨ (scores x = scores y ∧ nm y ≤ nm x)

instance {α : Type} (scores : α → ℕ) (nm : α → String) :
    DecidableRel (groupKeyGE scores nm) := fun x y =>
  inferInstanceAs (Decidable (scores y < scores x ∨
    (scores x = scores y ∧ nm y ≤ nm x)))

instance {α : Type} (scores : α → ℕ) (nm : α → String) :
    IsTotal α (groupKeyGE scores nm) where
  total x y := by
    rcases lt_trichotomy (scores x) (scores y) with h | h | h
    · exact Or.inr (Or.inl h)
    · rcases le_total (nm x) (nm y) with h2 | h2
      · exact Or.inr (Or.inr ⟨h.symm, h2⟩)
      · exact Or.inl (Or.inr ⟨h, h2⟩)
    · exact Or.inl (Or.inl h)

instance {α : Type} (scores : α → ℕ) (nm : α → String) :
    IsTrans α (groupKeyGE scores nm) where
  trans x y z hxy hyz := by
    rcases hxy with h1 | ⟨h1, h1n⟩ <;> rcases hyz with h2 | ⟨h2, h2n⟩
    · exact Or.inl (h2.trans h1)
    · exact Or.inl (h2 ▸ h1)
    · exact Or.inl (h2.trans_eq h1.symm)
    · exact Or.inr ⟨h1.trans h2, h2n.trans h1n⟩

/-- The group ranking
`sorted(group, key=lambda x: (score, name), reverse=True)` (source line
1601), realised as a stable sort with respect to `groupKeyGE` (Python's
`sorted` is stable, and `reverse=True` reverses comparisons while keeping
the original order of key-equal elements, which is exactly a stable
ascending sort under the reversed non-strict comparison). -/
def group_ranked {α : Type} (scores : α → ℕ) (nm : α → String)
    (group : List α) : List α :=
  List.insertionSort (groupKeyGE scores nm) group

/-- `group_qualifiers = group_ranked[:num_qualifiers]` (source line 1602). -/
def group_qualifiers {α : Type} (scores : α → ℕ) (nm : α → String)
    (num_qualifiers : ℕ) (group : List α) : List α :=
  (group_ranked scores nm group).take num_qualifiers

/-- The per-player payoff totals determined by two equal-length recorded
histories: componentwise sum of `PAYOFFS` over the paired actual moves. -/
def historyPayoffs : List Move → List Move → ℕ × ℕ
  | m1 :: h1, m2 :: h2 =>
      let p := PAYOFFS m1 m2
      let rest := historyPayoffs h1 h2
      (p.1 + rest.1, p.2 + rest.2)
  | _, _ => (0, 0)

/-- A concrete rule set: default `C`; an opponent's-last-move rule defining a
target move (`D`) only for "opponent just played C"; an
opponent-cooperation-rate rule with threshold 50 and move `D`. -/
def c2rules : RuleSet :=
  ⟨some Move.C, some ⟨some Move.D, none⟩, some ⟨50, Move.D⟩, none⟩

/-- A game constructed with `noise_prob = 2`, outside `[0, 1]`. -/
def c7game : Game :=
  Game.init [("defect", ⟨"Always Defect", always_defect⟩)] "defect" "defect"
    1 2 0

/- ------------------------------------------------------------------ -/
/- Theorems                                                            -/
/- ------------------------------------------------------------------ -/

theorem pairup_length {α : Type} : ∀ l : List α, (pairup l).length = l.length / 2
  | [] => by simp [pairup]
  | [_] => by simp [pairup]
  | _ :: _ :: rest => by
      simp only [pairup, List.length_cons, pairup_length rest]
      omega

theorem elimRound_shape {α : Type} (oracle : ℕ → α → α → ℕ × ℕ) (rn : ℕ)
    (ps : List α) (h : 1 < ps.length) :
    (elimRound oracle rn ps).next.length + (elimRound oracle rn ps).num_matches
        = ps.length ∧
    1 ≤ (elimRound oracle rn ps).num_matches ∧
    1 ≤ (elimRound oracle rn ps).next.length := by
  unfold elimRound
  by_cases hp : ps.length % 2 = 0 <;>
    simp [hp, pairup_length, List.length_take, List.length_drop] <;> omega

theorem runElimFuel_spec {α : Type} (oracle : ℕ → α → α → ℕ × ℕ) :
    ∀ (fuel : ℕ) (ps : List α) (rn : ℕ), 1 ≤ ps.length → ps.length ≤ fuel + 1 →
      (runElimFuel oracle fuel ps rn).final.length = 1 ∧
      (runElimFuel oracle fuel ps rn).num_matches = ps.length - 1 ∧
      (runElimFuel oracle fuel ps rn).round_num =
        rn + (runElimFuel oracle fuel ps rn).rounds_played := by
  intro fuel
  induction fuel with
  | zero =>
      intro ps rn h1 h2
      have hps : ps.length = 1 := by omega
      simp [runElimFuel, hps]
  | succ fuel ih =>
      intro ps rn h1 h2
      by_cases hlen : 1 < ps.length
      · have hsh := elimRound_shape oracle rn ps hlen
        have ihn := ih (elimRound oracle rn ps).next (rn + 1) (by omega) (by omega)
        simp only [runElimFuel, if_pos hlen]
        refine ⟨ihn.1, ?_, ?_⟩
        · have := ihn.2.1
          omega
        · have := ihn.2.2
          omega
      · have hps : ps.length = 1 := by omega
        simp [runElimFuel, hlen, hps]

theorem ruleDecision_of_noRuleMatches (rules : RuleSet) (opp : List Move)
    (round_number : ℕ) (h : noRuleMatches rules opp round_number = true) :
    ruleDecision rules opp round_number = (rules.default.getD Move.C, false) := by
  obtain ⟨d, ol, oc, rg⟩ := rules
  rcases ol with _ | r <;> rcases hlast : opp.getLast? with _ | lm <;>
    rcases oc with _ | c <;> rcases rg with _ | rgv <;>
      simp only [noRuleMatches, ruleDecision, hlast, Option.isNone_iff_eq_none,
        Bool.not_eq_true', decide_eq_false_iff_not] at h ⊢ <;>
      first
        | rfl
        | (rw [if_neg h])
        | (rw [h])

/-- C1: contrary to the claim, a strategy id absent from the registry does
not abort with a `LookupError` before the match is recorded: `Game.__init__`
silently substitutes an Always-Cooperate fallback function, and the round is
played and recorded normally.  Here both ids are unregistered, one round is
played, the move `C` is recorded and scored (3 points each). -/
theorem c1_missing_id_counterexample :
    ((Game.init [] "ghost" "ghost2" 1 0 0).play_round (fun _ => (0:ℚ)) 0
        0).game.history1 = [Move.C] ∧
    ((Game.init [] "ghost" "ghost2" 1 0 0).play_round (fun _ => (0:ℚ)) 0
        0).game.score1 = 3 ∧
    (Game.init [] "ghost" "ghost2" 1 0 0).strategy1_name = "ghost" :=
  ⟨by decide, by decide, rfl⟩

/-- C1 (amended): when a strategy id is absent from the registry,
`Game.__init__` installs the Always-Cooperate fallback decision function and
uses the raw id as the display name, and `play_round` still runs and records
a round (no `LookupError` is raised and nothing aborts). -/
theorem c1_missing_id_fallback (reg : List (String × StrategyMeta))
    (strategy1_id strategy2_id : String) (num_rounds : ℕ)
    (noise_prob forgiveness_prob : ℚ) (h : reg.lookup strategy1_id = none) :
    (Game.init reg strategy1_id strategy2_id num_rounds noise_prob
        forgiveness_prob).strategy1_func = missingStrategyFunc ∧
    (Game.init reg strategy1_id strategy2_id num_rounds noise_prob
        forgiveness_prob).strategy1_name = strategy1_id ∧
    ∀ (g : Rand) (round_number i : ℕ),
      ((Game.init reg strategy1_id strategy2_id num_rounds noise_prob
          forgiveness_prob).play_round g round_number i).game.history1.length
          = 1 ∧
      ((Game.init reg strategy1_id strategy2_id num_rounds noise_prob
          forgiveness_prob).play_round g round_number i).game.history2.length
          = 1 := by
  refine ⟨?_, ?_, ?_⟩ <;> simp [Game.init, Game.play_round, h]

/-- Witness for `c1_missing_id_fallback` at the empty registry. -/
theorem c1_missing_id_fallback_witness :
    (([] : List (String × StrategyMeta)).lookup "ghost" = none) ∧
    ((Game.init [] "ghost" "ghost2" 1 0 0).strategy1_func
        = missingStrategyFunc ∧
     (Game.init [] "ghost" "ghost2" 1 0 0).strategy1_name = "ghost" ∧
     ∀ (g : Rand) (round_number i : ℕ),
       ((Game.init [] "ghost" "ghost2" 1 0 0).play_round g round_number
           i).game.history1.length = 1 ∧
       ((Game.init [] "ghost" "ghost2" 1 0 0).play_round g round_number
           i).game.history2.length = 1) :=
  ⟨rfl, c1_missing_id_fallback [] "ghost" "ghost2" 1 0 0 rfl⟩

/-- C2: counterexample to "first match wins across rule kinds".  In
`c2rules` the opponent's-last-move rule defines no move for "opponent just
played D", the opponent's last move is `D`, and the cooperation-rate rule's
condition holds (`coopRate [D] = 0 < 50`) with move `D`; the claim predicts
decision `D`, but the compiled function returns the default `C` because the
`elif` chain is keyed on the mere presence of the higher-priority rule. -/
theorem c2_priority_counterexample :
    custom_strategy_logic c2rules (fun _ => (0:ℚ)) [] [Move.D] 1 0 0
        = (Move.C, 0) ∧
    coopRate [Move.D] < 50 ∧
    c2rules.opp_coop_lt = some ⟨50, Move.D⟩ ∧
    Move.C ≠ Move.D := by
  refine ⟨by decide, ?_, rfl, by decide⟩
  norm_num [coopRate, show List.count Move.C [Move.D] = 0 from rfl]

/-- C2 (amended): the rule chain is evaluated by *presence*, first present
rule wins.  (1) If the opponent's-last-move rule is present and there is
history but it defines no move for the actual last move, the default move is
used and lower-priority rules are never consulted.  (2) If it defines a move
for the actual last move, that move is used (subject to the forgiveness
override exactly when it is `D`), regardless of the other rules.  (3) If no
rule matches, the default move is used (and never forgiven). -/
theorem c2_rule_priority_amended (rules : RuleSet) (g : Rand)
    (my opp : List Move) (round_number : ℕ) (fprob : ℚ) (i : ℕ) :
    (∀ r lm, rules.opp_last_move = some r → opp.getLast? = some lm →
        (if lm = Move.C then r.onC else r.onD) = none →
        custom_strategy_logic rules g my opp round_number fprob i =
          (rules.default.getD Move.C, i)) ∧
    (∀ r lm m, rules.opp_last_move = some r → opp.getLast? = some lm →
        (if lm = Move.C then r.onC else r.onD) = some m →
        custom_strategy_logic rules g my opp round_number fprob i =
          (if m = Move.D then
              (if g i < fprob then (Move.C, i + 1) else (Move.D, i + 1))
            else (m, i))) ∧
    (noRuleMatches rules opp round_number = true →
        custom_strategy_logic rules g my opp round_number fprob i =
          (rules.default.getD Move.C, i)) := by
  refine ⟨?_, ?_, ?_⟩
  · intro r lm hr hl hkey
    unfold custom_strategy_logic ruleDecision
    rw [hr, hl]
    simp [hkey]
  · intro r lm m hr hl hkey
    unfold custom_strategy_logic ruleDecision
    rw [hr, hl]
    rcases m with _ | _ <;> simp [hkey]
  · intro hnm
    have hrd := ruleDecision_of_noRuleMatches rules opp round_number hnm
    unfold custom_strategy_logic
    rw [hrd]
    simp

/-- Witness for `c2_rule_priority_amended`: on `c2rules` with opponent
history `[D]` the present opponent's-last-move rule wins by presence and the
default `C` is returned. -/
theorem c2_rule_priority_amended_witness :
    custom_strategy_logic c2rules (fun _ => (0:ℚ)) [] [Move.D] 1 0 0 =
      (c2rules.default.getD Move.C, 0) :=
  (c2_rule_priority_amended c2rules (fun _ => (0:ℚ)) [] [Move.D] 1 0 0).1
    ⟨some Move.D, none⟩ Move.D rfl rfl rfl

/-- C3: contrary to the claim, compiling a rule set with no default move
does not fail with a `ConfigError`: `create_custom_strategy_function`
performs no validation, the compiled function is usable and silently uses
`COOPERATE` where the default would be consulted
(`rules.get('default', COOPERATE)`). -/
theorem c3_no_default_counterexample :
    (⟨none, none, none, none⟩ : RuleSet).default = none ∧
    create_custom_strategy_function ⟨none, none, none, none⟩
      (fun _ => (0:ℚ)) [] [] 0 0 0 = (Move.C, 0) :=
  ⟨rfl, by decide⟩

/-- C3 (amended): a rule set with no default move compiles without error,
and the compiled decision function behaves identically to the same rule set
with an explicit default of Cooperate. -/
theorem c3_missing_default_is_cooperate (olm : Option OppLastMoveRule)
    (oc : Option CoopRateRule) (org : Option RoundGtRule) (g : Rand)
    (my opp : List Move) (round_number : ℕ) (fprob : ℚ) (i : ℕ) :
    create_custom_strategy_function ⟨none, olm, oc, org⟩ g my opp
        round_number fprob i =
      create_custom_strategy_function ⟨some Move.C, olm, oc, org⟩ g my opp
        round_number fprob i := rfl

/-- C4: in the Single Elimination format over `n ≥ 2` participants, for any
possible match outcomes, exactly `n − 1` decisive matches are played (byes
excluded), exactly one participant survives the loop, and the elimination
round recorded for the winner (`round_num` after the loop) equals the number
of bracket rounds played plus one. -/
theorem c4_single_elimination {α : Type} (oracle : ℕ → α → α → ℕ × ℕ)
    (participants : List α) (h : 2 ≤ participants.length) :
    (run_elimination oracle participants).num_matches
        = participants.length - 1 ∧
    (run_elimination oracle participants).final.length = 1 ∧
    winnerElimRound oracle participants =
      (run_elimination oracle participants).rounds_played + 1 := by
  have hs := runElimFuel_spec oracle participants.length participants 1
    (by omega) (by omega)
  refine ⟨hs.2.1, hs.1, ?_⟩
  have h3 := hs.2.2
  unfold winnerElimRound run_elimination at *
  omega

/-- Witness for `c4_single_elimination` with three participants. -/
theorem c4_single_elimination_witness :
    2 ≤ (["a", "b", "c"] : List String).length ∧
    ((run_elimination (fun _ _ _ => ((1:ℕ), (0:ℕ))) ["a", "b", "c"]).num_matches
        = (["a", "b", "c"] : List String).length - 1 ∧
     (run_elimination (fun _ _ _ => ((1:ℕ), (0:ℕ))) ["a", "b", "c"]).final.length
        = 1 ∧
     winnerElimRound (fun _ _ _ => ((1:ℕ), (0:ℕ))) ["a", "b", "c"] =
       (run_elimination (fun _ _ _ => ((1:ℕ), (0:ℕ)))
           ["a", "b", "c"]).rounds_played + 1) :=
  ⟨by decide, c4_single_elimination (fun _ _ _ => ((1:ℕ), (0:ℕ)))
    ["a", "b", "c"] (by decide)⟩

/-- C5: counterexample to the ascending-name tie-break.  With two
participants of equal in-group score named "A" and "B", the source's
`sorted(..., key=(score, name), reverse=True)` orders "B" before "A"
(descending names on a score tie), not `["A", "B"]` as the claim's ascending
tie-break requires. -/
theorem c5_tiebreak_counterexample :
    group_ranked (fun _ => 0) (fun s => s) ["A", "B"] = ["B", "A"] ∧
    (["B", "A"] : List String) ≠ ["A", "B"] := by
  constructor
  · simp only [group_ranked, List.insertionSort, List.orderedInsert]
    norm_num [groupKeyGE]
    decide
  · decide

/-- C5 (amended): the group ranking is a permutation of the group sorted
descending by in-group score with ties broken by display name in
*descending* lexicographic order, and the top `num_qualifiers` of this
ordering advance. -/
theorem c5_group_ranking_amended {α : Type} (scores : α → ℕ)
    (nm : α → String) (group : List α) (num_qualifiers : ℕ) :
    (group_ranked scores nm group).Perm group ∧
    List.Sorted (groupKeyGE scores nm) (group_ranked scores nm group) ∧
    group_qualifiers scores nm num_qualifiers group =
      (group_ranked scores nm group).take num_qualifiers :=
  ⟨List.perm_insertionSort _ _, List.sorted_insertionSort _ _, rfl⟩

/-- C6: for a rule set whose default move is Defect, on any input where no
rule matches the decision function returns Defect with no draw consumed,
regardless of the forgiveness probability and the draw stream: the
forgiveness override requires the `rule_triggered_defection` flag, which is
never set by the default fallback. -/
theorem c6_default_defect_never_forgiven (rules : RuleSet) (opp : List Move)
    (round_number : ℕ) (hd : rules.default = some Move.D)
    (hnm : noRuleMatches rules opp round_number = true) :
    ∀ (g : Rand) (my : List Move) (fprob : ℚ) (i : ℕ),
      custom_strategy_logic rules g my opp round_number fprob i
        = (Move.D, i) := by
  intro g my fprob i
  have hrd := ruleDecision_of_noRuleMatches rules opp round_number hnm
  unfold custom_strategy_logic
  rw [hrd, hd]
  simp

/-- Witness for `c6_default_defect_never_forgiven`: an empty rule set with
default `D`, forgiveness probability 1 and a draw of 0 still defects. -/
theorem c6_default_defect_never_forgiven_witness :
    ((⟨some Move.D, none, none, none⟩ : RuleSet).default = some Move.D) ∧
    noRuleMatches ⟨some Move.D, none, none, none⟩ [] 0 = true ∧
    custom_strategy_logic ⟨some Move.D, none, none, none⟩ (fun _ => (0:ℚ))
      [] [] 0 1 0 = (Move.D, 0) :=
  ⟨rfl, by decide,
    c6_default_defect_never_forgiven ⟨some Move.D, none, none, none⟩ [] 0
      rfl (by decide) (fun _ => (0:ℚ)) [] 1 0⟩

/-- C7: contrary to the claim, an out-of-range `noise_prob` is not rejected:
`c7game` is constructed with `noise_prob = 2`, the round runs (both intended
`D` moves are flipped since every draw is below 2), and the stored value
remains 2 (neither a `ValidationError` nor clamping occurs). -/
theorem c7_out_of_range_counterexample :
    (c7game.play_round (fun _ => (0:ℚ)) 0 0).game.history1 = [Move.C] ∧
    (c7game.play_round (fun _ => (0:ℚ)) 0 0).game.history2 = [Move.C] ∧
    c7game.noise_prob = 2 :=
  ⟨by decide, by decide, rfl⟩

/-- C7 (amended): the core performs no validation of the probability
fields: even when `noise_prob` or `forgiveness_prob` lies outside `[0, 1]`,
`play_round` still appends a round to both histories and leaves the stored
probabilities unchanged (it neither rejects nor clamps). -/
theorem c7_no_probability_validation (gm : Game) (g : Rand)
    (round_number i : ℕ)
    (h : gm.noise_prob < 0 ∨ 1 < gm.noise_prob ∨ gm.forgiveness_prob < 0 ∨
      1 < gm.forgiveness_prob) :
    (gm.play_round g round_number i).game.history1.length
        = gm.history1.length + 1 ∧
    (gm.play_round g round_number i).game.history2.length
        = gm.history2.length + 1 ∧
    (gm.play_round g round_number i).game.noise_prob = gm.noise_prob ∧
    (gm.play_round g round_number i).game.forgiveness_prob
        = gm.forgiveness_prob := by
  refine ⟨?_, ?_, rfl, rfl⟩ <;> simp [Game.play_round]

/-- Witness for `c7_no_probability_validation` at `c7game`. -/
theorem c7_no_probability_validation_witness :
    (c7game.noise_prob < 0 ∨ 1 < c7game.noise_prob ∨
      c7game.forgiveness_prob < 0 ∨ 1 < c7game.forgiveness_prob) ∧
    ((c7game.play_round (fun _ => (0:ℚ)) 0 0).game.history1.length
        = c7game.history1.length + 1 ∧
     (c7game.play_round (fun _ => (0:ℚ)) 0 0).game.history2.length
        = c7game.history2.length + 1 ∧
     (c7game.play_round (fun _ => (0:ℚ)) 0 0).game.noise_prob
        = c7game.noise_prob ∧
     (c7game.play_round (fun _ => (0:ℚ)) 0 0).game.forgiveness_prob
        = c7game.forgiveness_prob) :=
  ⟨by decide, c7_no_probability_validation c7game (fun _ => (0:ℚ)) 0 0
    (by decide)⟩

/-- C8: counterexample.  With opponent history `[D, C]` (a past defection
but a last move of `C`), forgiveness probability 1 and a draw of 0 — below
the probability, so the claim predicts Cooperate — `grudger` returns Defect
without even consuming the draw: the override is gated on the opponent's
*most recent* move being `D`. -/
theorem c8_grudger_counterexample :
    grudger (fun _ => (0:ℚ)) [] [Move.D, Move.C] 2 1 0 = (Move.D, 0) ∧
    ((0:ℚ) < 1) ∧ Move.D ∈ [Move.D, Move.C] :=
  ⟨by decide, by decide, by decide⟩

/-- C8 (amended): once the opponent has defected at least once, `grudger`
defects subject to the forgiveness override *only when the opponent's most
recent move is `D`* (returning Cooperate exactly when the draw is below the
forgiveness probability); when the most recent move is `C` it returns
Defect unconditionally, consuming no draw. -/
theorem c8_grudger_amended (opp : List Move) (hD : Move.D ∈ opp) (g : Rand)
    (my : List Move) (round_number : ℕ) (fprob : ℚ) (i : ℕ) :
    (opp.getLast? = some Move.D →
        grudger g my opp round_number fprob i =
          (if g i < fprob then Move.C else Move.D, i + 1)) ∧
    (opp.getLast? = some Move.C →
        grudger g my opp round_number fprob i = (Move.D, i)) := by
  constructor
  · intro hlast
    unfold grudger
    rw [if_pos hD, if_pos hlast]
    by_cases hf : g i < fprob <;> simp [hf]
  · intro hlast
    unfold grudger
    rw [if_pos hD, if_neg (by simp [hlast])]

/-- Witness for `c8_grudger_amended` with history `[D]`, forgiveness 1 and
draw 0: the decision is forgiven to Cooperate. -/
theorem c8_grudger_amended_witness :
    Move.D ∈ [Move.D] ∧
    grudger (fun _ => (0:ℚ)) [] [Move.D] 0 1 0 =
      (if (fun _ => (0:ℚ)) 0 < (1:ℚ) then Move.C else Move.D, 0 + 1) :=
  ⟨by decide,
    (c8_grudger_amended [Move.D] (by decide) (fun _ => (0:ℚ)) [] 0 1 0).1 rfl⟩

/-- C9: Tit-for-Tat vs Always Defect over 5 rounds with zero noise and zero
forgiveness, for every draw stream with nonnegative draws: round 1 is
`(C, D)` scoring `(0, 5)`, rounds 2-5 are `(D, D)` scoring `(1, 1)`, and the
final result is scores `(4, 9)` with histories "CDDDD" and "DDDDD". -/
theorem c9_scenario_b (g : Rand) (hg : ∀ j, 0 ≤ g j) :
    (Game.init BUILT_IN_STRATEGIES_META "tit_for_tat" "defect" 5 0 0).run_game
        g 0 = (4, 9, "CDDDD", "DDDDD") ∧
    ((Game.run_from g 5 (Game.init BUILT_IN_STRATEGIES_META "tit_for_tat"
        "defect" 5 0 0) 0 0).1.get_round_data 0 = some (Move.C, Move.D, 0, 5)) ∧
    ((Game.run_from g 5 (Game.init BUILT_IN_STRATEGIES_META "tit_for_tat"
        "defect" 5 0 0) 0 0).1.get_round_data 1 = some (Move.D, Move.D, 1, 1)) ∧
    ((Game.run_from g 5 (Game.init BUILT_IN_STRATEGIES_META "tit_for_tat"
        "defect" 5 0 0) 0 0).1.get_round_data 2 = some (Move.D, Move.D, 1, 1)) ∧
    ((Game.run_from g 5 (Game.init BUILT_IN_STRATEGIES_META "tit_for_tat"
        "defect" 5 0 0) 0 0).1.get_round_data 3 = some (Move.D, Move.D, 1, 1)) ∧
    ((Game.run_from g 5 (Game.init BUILT_IN_STRATEGIES_META "tit_for_tat"
        "defect" 5 0 0) 0 0).1.get_round_data 4 = some (Move.D, Move.D, 1, 1)) := by
  have hlt : ∀ j, ¬ g j < (0:ℚ) := fun j => not_lt.mpr (hg j)
  have hinit : Game.init BUILT_IN_STRATEGIES_META "tit_for_tat" "defect" 5 0 0 =
      { strategy1_id := "tit_for_tat", strategy2_id := "defect",
        num_rounds := 5, noise_prob := 0, forgiveness_prob := 0,
        history1 := [], history2 := [], score1 := 0, score2 := 0,
        strategy1_func := tit_for_tat, strategy2_func := always_defect,
        strategy1_name := "Tit for Tat (TFT)",
        strategy2_name := "Always Defect" } := rfl
  rw [hinit]
  refine ⟨?_, ?_, ?_, ?_, ?_, ?_⟩ <;>
    simp [Game.run_game, Game.run_from, Game.play_round, tit_for_tat,
      always_defect, flip, PAYOFFS, moveString, Move.toChar,
      Game.get_round_data, hlt]

/-- Witness for `c9_scenario_b` at the constant draw stream 0. -/
theorem c9_scenario_b_witness :
    (Game.init BUILT_IN_STRATEGIES_META "tit_for_tat" "defect" 5 0 0).run_game
        (fun _ => (0:ℚ)) 0 = (4, 9, "CDDDD", "DDDDD") :=
  (c9_scenario_b (fun _ => (0:ℚ)) (fun _ => le_refl 0)).1

theorem historyPayoffs_append : ∀ (h1 h2 : List Move) (m1 m2 : Move),
    h1.length = h2.length →
    historyPayoffs (h1 ++ [m1]) (h2 ++ [m2]) =
      ((historyPayoffs h1 h2).1 + (PAYOFFS m1 m2).1,
       (historyPayoffs h1 h2).2 + (PAYOFFS m1 m2).2)
  | [], [], m1, m2, _ => by simp [historyPayoffs]
  | [], _ :: _, _, _, h => by simp at h
  | _ :: _, [], _, _, h => by simp at h
  | a :: t1, b :: t2, m1, m2, h => by
      have ih := historyPayoffs_append t1 t2 m1 m2 (by simpa using h)
      simp only [List.cons_append, historyPayoffs, ih]
      simp [ih, Nat.add_assoc]

theorem run_from_invariant (g : Rand) : ∀ (k : ℕ) (gm : Game) (round0 i : ℕ),
    gm.history1.length = gm.history2.length →
    (gm.score1, gm.score2) = historyPayoffs gm.history1 gm.history2 →
    ((Game.run_from g k gm round0 i).1.history1.length
        = gm.history1.length + k) ∧
    ((Game.run_from g k gm round0 i).1.history2.length
        = gm.history2.length + k) ∧
    ((Game.run_from g k gm round0 i).1.score1,
        (Game.run_from g k gm round0 i).1.score2) =
      historyPayoffs (Game.run_from g k gm round0 i).1.history1
        (Game.run_from g k gm round0 i).1.history2 ∧
    (Game.run_from g k gm round0 i).1.num_rounds = gm.num_rounds ∧
    (Game.run_from g k gm round0 i).1.strategy1_id = gm.strategy1_id ∧
    (Game.run_from g k gm round0 i).1.strategy2_id = gm.strategy2_id ∧
    (Game.run_from g k gm round0 i).1.noise_prob = gm.noise_prob ∧
    (Game.run_from g k gm round0 i).1.forgiveness_prob = gm.forgiveness_prob
  | 0, gm, round0, i, h1, h2 => by
      simpa [Game.run_from] using h2
  | k + 1, gm, round0, i, h1, h2 => by
      have hh1 : (gm.play_round g round0 i).game.history1 =
          gm.history1 ++ [(gm.play_round g round0 i).move1_actual] := rfl
      have hh2 : (gm.play_round g round0 i).game.history2 =
          gm.history2 ++ [(gm.play_round g round0 i).move2_actual] := rfl
      have hlen : (gm.play_round g round0 i).game.history1.length =
          (gm.play_round g round0 i).game.history2.length := by
        rw [hh1, hh2]
        simp [h1]
      have hsc : ((gm.play_round g round0 i).game.score1,
          (gm.play_round g round0 i).game.score2) =
          historyPayoffs (gm.play_round g round0 i).game.history1
            (gm.play_round g round0 i).game.history2 := by
        rw [hh1, hh2, historyPayoffs_append _ _ _ _ h1]
        have h2a : gm.score1 = (historyPayoffs gm.history1 gm.history2).1 :=
          congrArg Prod.fst h2
        have h2b : gm.score2 = (historyPayoffs gm.history1 gm.history2).2 :=
          congrArg Prod.snd h2
        have hs1 : (gm.play_round g round0 i).game.score1 =
            gm.score1 + (PAYOFFS (gm.play_round g round0 i).move1_actual
              (gm.play_round g round0 i).move2_actual).1 := rfl
        have hs2 : (gm.play_round g round0 i).game.score2 =
            gm.score2 + (PAYOFFS (gm.play_round g round0 i).move1_actual
              (gm.play_round g round0 i).move2_actual).2 := rfl
        rw [hs1, hs2, h2a, h2b]
      have ih := run_from_invariant g k (gm.play_round g round0 i).game
        (round0 + 1) (gm.play_round g round0 i).rng hlen hsc
      simp only [Game.run_from]
      refine ⟨?_, ?_, ih.2.2.1, ih.2.2.2.1, ih.2.2.2.2.1, ih.2.2.2.2.2.1,
        ih.2.2.2.2.2.2.1, ih.2.2.2.2.2.2.2⟩
      · rw [ih.1, hh1]
        simp only [List.length_append, List.length_cons, List.length_nil]
        omega
      · rw [ih.2.1, hh2]
        simp only [List.length_append, List.length_cons, List.length_nil]
        omega

/-- C10: after `k ≤ N` calls of `play_round` on a freshly constructed game,
both histories have length exactly `k`, each cumulative score equals the sum
over recorded rounds of that player's payoff from `PAYOFFS` applied to the
pair of recorded actual moves, and the round count, ids and probability
fields are unchanged. -/
theorem c10_play_round_invariant (reg : List (String × StrategyMeta))
    (strategy1_id strategy2_id : String) (num_rounds : ℕ)
    (noise_prob forgiveness_prob : ℚ) (g : Rand) (k round0 i : ℕ)
    (hk : k ≤ num_rounds) :
    ((Game.run_from g k (Game.init reg strategy1_id strategy2_id num_rounds
        noise_prob forgiveness_prob) round0 i).1.history1.length = k) ∧
    ((Game.run_from g k (Game.init reg strategy1_id strategy2_id num_rounds
        noise_prob forgiveness_prob) round0 i).1.history2.length = k) ∧
    (((Game.run_from g k (Game.init reg strategy1_id strategy2_id num_rounds
          noise_prob forgiveness_prob) round0 i).1.score1,
      (Game.run_from g k (Game.init reg strategy1_id strategy2_id num_rounds
          noise_prob forgiveness_prob) round0 i).1.score2) =
      historyPayoffs
        (Game.run_from g k (Game.init reg strategy1_id strategy2_id
            num_rounds noise_prob forgiveness_prob) round0 i).1.history1
        (Game.run_from g k (Game.init reg strategy1_id strategy2_id
            num_rounds noise_prob forgiveness_prob) round0 i).1.history2) ∧
    ((Game.run_from g k (Game.init reg strategy1_id strategy2_id num_rounds
        noise_prob forgiveness_prob) round0 i).1.num_rounds = num_rounds) ∧
    ((Game.run_from g k (Game.init reg strategy1_id strategy2_id num_rounds
        noise_prob forgiveness_prob) round0 i).1.strategy1_id
        = strategy1_id) ∧
    ((Game.run_from g k (Game.init reg strategy1_id strategy2_id num_rounds
        noise_prob forgiveness_prob) round0 i).1.strategy2_id
        = strategy2_id) ∧
    ((Game.run_from g k (Game.init reg strategy1_id strategy2_id num_rounds
        noise_prob forgiveness_prob) round0 i).1.noise_prob = noise_prob) ∧
    ((Game.run_from g k (Game.init reg strategy1_id strategy2_id num_rounds
        noise_prob forgiveness_prob) round0 i).1.forgiveness_prob
        = forgiveness_prob) := by
  have h := run_from_invariant g k (Game.init reg strategy1_id strategy2_id
    num_rounds noise_prob forgiveness_prob) round0 i rfl rfl
  simpa [Game.init] using h

/-- Witness for `c10_play_round_invariant`: one round of two unregistered
strategies in a two-round game. -/
theorem c10_play_round_invariant_witness :
    (1 ≤ 2) ∧
    (((Game.run_from (fun _ => (0:ℚ)) 1 (Game.init [] "ghost" "ghost2" 2 0 0)
        0 0).1.history1.length = 1) ∧
     ((Game.run_from (fun _ => (0:ℚ)) 1 (Game.init [] "ghost" "ghost2" 2 0 0)
        0 0).1.history2.length = 1) ∧
     (((Game.run_from (fun _ => (0:ℚ)) 1 (Game.init [] "ghost" "ghost2" 2 0 0)
          0 0).1.score1,
       (Game.run_from (fun _ => (0:ℚ)) 1 (Game.init [] "ghost" "ghost2" 2 0 0)
          0 0).1.score2) =
       historyPayoffs
         (Game.run_from (fun _ => (0:ℚ)) 1 (Game.init [] "ghost" "ghost2" 2
            0 0) 0 0).1.history1
         (Game.run_from (fun _ => (0:ℚ)) 1 (Game.init [] "ghost" "ghost2" 2
            0 0) 0 0).1.history2) ∧
     ((Game.run_from (fun _ => (0:ℚ)) 1 (Game.init [] "ghost" "ghost2" 2 0 0)
        0 0).1.num_rounds = 2) ∧
     ((Game.run_from (fun _ => (0:ℚ)) 1 (Game.init [] "ghost" "ghost2" 2 0 0)
        0 0).1.strategy1_id = "ghost") ∧
     ((Game.run_from (fun _ => (0:ℚ)) 1 (Game.init [] "ghost" "ghost2" 2 0 0)
        0 0).1.strategy2_id = "ghost2") ∧
     ((Game.run_from (fun _ => (0:ℚ)) 1 (Game.init [] "ghost" "ghost2" 2 0 0)
        0 0).1.noise_prob = 0) ∧
     ((Game.run_from (fun _ => (0:ℚ)) 1 (Game.init [] "ghost" "ghost2" 2 0 0)
        0 0).1.forgiveness_prob = 0)) :=
  ⟨by decide, c10_play_round_invariant [] "ghost" "ghost2" 2 0 0
    (fun _ => (0:ℚ)) 1 0 0 (by decide)⟩

end IPD
